import Mathlib

/- Shallow embedding of the data-synchronization and task-orchestration engine
of the video-asset manager.  Sources: the `useAppData` hook in `src/App.tsx`
(asset / category / generation-task mutations), the `pollTasks` loop in
`src/components/UploadModal.tsx`, and the record types in `src/types.ts`.
External collaborators (the row store, the object store and the external job
API) are modelled as explicit environments passed to each operation; machine
effects such as network calls become fields of the returned outcome records.  -/

namespace BOT

/-- ASCII lower-casing, as JS `toLowerCase` on the ASCII status strings this
code manipulates (character-wise, so that it evaluates by `decide`). -/
def strToLower (s : String) : String := String.mk (s.data.map Char.toLower)

/-- ASCII upper-casing, as JS `toUpperCase`. -/
def strToUpper (s : String) : String := String.mk (s.data.map Char.toUpper)

/-- Fuel-driven worker for `jsSplit`; the fuel starts at the length of the
string, which the scan never exhausts, and only makes the recursion
structural. -/
def splitAux (sep : List Char) : Nat → List Char → List Char → List (List Char)
  | 0, s, acc => [acc.reverse ++ s]
  | _ + 1, [], acc => [acc.reverse]
  | fuel + 1, c :: rest, acc =>
    if sep.isPrefixOf (c :: rest) then
      acc.reverse :: splitAux sep fuel ((c :: rest).drop sep.length) []
    else splitAux sep fuel rest (c :: acc)

/-- JS `String.prototype.split` with a non-empty string separator: scan left
to right, cutting at each occurrence of the separator.  (The app never splits
on an empty separator.) -/
def jsSplit (s sep : String) : List String :=
  if sep.data = [] then [s]
  else (splitAux sep.data s.data.length s.data []).map String.mk

/-- JS `String.prototype.trim` on the ASCII strings the app handles: strip
leading and trailing whitespace. -/
def jsTrim (s : String) : String :=
  String.mk ((s.data.dropWhile Char.isWhitespace).reverse.dropWhile
    Char.isWhitespace).reverse

/-- JS `x || null` on an optional string: an absent or empty (falsy) string
becomes `none`. -/
def jsOrNone : Option String → Option String
  | none => none
  | some s => if s = "" then none else some s

/-- The `initial_metadata` payload of a `GenerationTask` (`src/types.ts`). -/
structure InitialMetadata where
  performance_actor : String
  movement_type : String
  take_number : Nat
  tags : List String
  character_asset_name : String
  reference_video_name : String
deriving DecidableEq, Repr

/-- A `GenerationTask` record (`src/types.ts`).  `status` is kept as the
stored string, because `pollTasks` compares it and writes it back as a string
(`task.status.toLowerCase()`, `runwayTask.status.toUpperCase()`). -/
structure GenerationTask where
  id : String
  created_at : String
  user_id : String
  runway_task_id : Option String
  status : String
  initial_metadata : InitialMetadata
  input_reference_video_url : Option String
  input_character_url : Option String
  output_video_url : Option String
  error_message : Option String
deriving DecidableEq, Repr

/-- Body of a successful external-status query, `GET /jobs/id`:
status plus optional `output.uri` and optional `error`. -/
structure RunwayTaskResponse where
  status : String
  output_uri : Option String
  error : Option String
deriving DecidableEq, Repr

/-- The state `pollTasks` reads and writes: the `generation_tasks` rows and a
counter of `refreshData` invocations. -/
structure PollState where
  tasks : List GenerationTask
  refreshCount : Nat
deriving DecidableEq, Repr

/-- Supabase `update(payload).eq('id', i)`: rewrite every row whose id is
`i`. -/
def applyUpdate (l : List GenerationTask) (i : String)
    (f : GenerationTask → GenerationTask) : List GenerationTask :=
  l.map (fun t => if t.id == i then f t else t)

/-- The update payload built from a successful poll response: status
upper-cased, `runwayTask.output?.uri || null`, `runwayTask.error || null`. -/
def pollUpdate (r : RunwayTaskResponse) (t : GenerationTask) : GenerationTask :=
  { t with
    status := strToUpper r.status,
    output_video_url := jsOrNone r.output_uri,
    error_message := jsOrNone r.error }

/-- The update payload written from the catch branch of `pollTasks`:
status `FAILED` with the exception text as `error_message`. -/
def pollFail (msg : String) (t : GenerationTask) : GenerationTask :=
  { t with status := "FAILED", error_message := some msg }

/-- One iteration of the for-loop in `pollTasks` for the snapshot task
`task`: skip when `runway_task_id` is null; otherwise query the external API
(`env`), and either write the changed status row (followed by a refresh) or,
on an exception, write `FAILED` with the exception text and refresh. -/
def pollOne (env : String → Except String RunwayTaskResponse)
    (st : PollState) (task : GenerationTask) : PollState :=
  match task.runway_task_id with
  | none => st
  | some rid =>
    match env rid with
    | .ok r =>
      if strToLower task.status ≠ r.status then
        { tasks := applyUpdate st.tasks task.id (pollUpdate r),
          refreshCount := st.refreshCount + 1 }
      else st
    | .error msg =>
      { tasks := applyUpdate st.tasks task.id (pollFail msg),
        refreshCount := st.refreshCount + 1 }

/-- The tasks selected by a poll tick:
`tasks.filter(t => t.status === 'PENDING' || t.status === 'RUNNING')`. -/
def tasksToPoll (st : PollState) : List GenerationTask :=
  st.tasks.filter (fun t => t.status == "PENDING" || t.status == "RUNNING")

/-- One poll tick (`pollTasks` in `src/components/UploadModal.tsx`): fold
`pollOne` over the snapshot of currently `PENDING` / `RUNNING` tasks. -/
def pollTasks (env : String → Except String RunwayTaskResponse)
    (st : PollState) : PollState :=
  (tasksToPoll st).foldl (pollOne env) st

/-- The row-level effect of polling one snapshot task, read off `pollOne`:
what the row with that task's id becomes after its own poll step. -/
def pollRowResult (env : String → Except String RunwayTaskResponse)
    (task : GenerationTask) : GenerationTask :=
  match task.runway_task_id with
  | none => task
  | some rid =>
    match env rid with
    | .ok r => if strToLower task.status ≠ r.status then pollUpdate r task else task
    | .error msg => pollFail msg task

/-! Generic list bookkeeping for the by-id row updates of `pollTasks`. -/

theorem filter_map_eq_of_fix {α : Type} (g : α → α) (P : α → Bool)
    (h1 : ∀ x, P (g x) = P x) (h2 : ∀ x, P x = true → g x = x) :
    ∀ l : List α, (l.map g).filter P = l.filter P := by
  intro l
  induction l with
  | nil => rfl
  | cons a l ih =>
    simp only [List.map_cons, List.filter_cons, h1 a]
    cases hp : P a with
    | false => exact ih
    | true => rw [h2 a hp, ih]

/-- A by-id update whose payload keeps the id, targeted at an id other than
`tid`, does not change the rows with id `tid`. -/
theorem filter_applyUpdate_ne (f : GenerationTask → GenerationTask)
    (hf : ∀ t, (f t).id = t.id) (i tid : String) (hne : i ≠ tid)
    (l : List GenerationTask) :
    (applyUpdate l i f).filter (fun x => x.id == tid)
      = l.filter (fun x => x.id == tid) := by
  apply filter_map_eq_of_fix
  · intro x
    by_cases hx : x.id = i
    · simp [hx, hf]
    · simp [hx]
  · intro x hx
    have hxe : x.id = tid := by simpa using hx
    have hni : (x.id == i) = false := by
      rw [hxe]
      exact beq_eq_false_iff_ne.mpr (fun h => hne h.symm)
    simp [hni]

theorem filter_map_comm_of_match {α : Type} (g f : α → α) (P : α → Bool)
    (h1 : ∀ x, P (g x) = P x) (h2 : ∀ x, P x = true → g x = f x) :
    ∀ l : List α, (l.map g).filter P = (l.filter P).map f := by
  intro l
  induction l with
  | nil => rfl
  | cons a l ih =>
    simp only [List.map_cons, List.filter_cons, h1 a]
    cases hp : P a with
    | false => simpa using ih
    | true => rw [h2 a hp, ih]; simp

/-- A by-id update maps exactly the rows with the targeted id through the
payload. -/
theorem filter_applyUpdate_self (f : GenerationTask → GenerationTask)
    (hf : ∀ t, (f t).id = t.id) (tid : String) (l : List GenerationTask) :
    (applyUpdate l tid f).filter (fun x => x.id == tid)
      = (l.filter (fun x => x.id == tid)).map f := by
  apply filter_map_comm_of_match
  · intro x
    by_cases hx : x.id = tid
    · simp [hx, hf]
    · simp [hx]
  · intro x hx
    have hxe : (x.id == tid) = true := by simpa using hx
    simp [hxe]

/-- A `pollOne` step for a snapshot task with another id leaves the rows with
id `tid` unchanged. -/
theorem pollOne_filter_ne (env : String → Except String RunwayTaskResponse)
    (st : PollState) (p : GenerationTask) (tid : String) (hne : p.id ≠ tid) :
    ((pollOne env st p).tasks.filter (fun x => x.id == tid))
      = st.tasks.filter (fun x => x.id == tid) := by
  cases hr : p.runway_task_id with
  | none => simp [pollOne, hr]
  | some rid =>
    cases he : env rid with
    | ok r =>
      by_cases hdiff : strToLower p.status ≠ r.status
      · have hstep : pollOne env st p =
            { tasks := applyUpdate st.tasks p.id (pollUpdate r),
              refreshCount := st.refreshCount + 1 } := by
          simp [pollOne, hr, he, hdiff]
        rw [hstep]
        exact filter_applyUpdate_ne (pollUpdate r) (fun _ => rfl) p.id tid hne st.tasks
      · simp [pollOne, hr, he, hdiff]
    | error msg =>
      have hstep : pollOne env st p =
          { tasks := applyUpdate st.tasks p.id (pollFail msg),
            refreshCount := st.refreshCount + 1 } := by
        simp [pollOne, hr, he]
      rw [hstep]
      exact filter_applyUpdate_ne (pollFail msg) (fun _ => rfl) p.id tid hne st.tasks

theorem foldl_pollOne_filter_ne (env : String → Except String RunwayTaskResponse)
    (tid : String) (l : List GenerationTask) :
    ∀ st : PollState, (∀ p ∈ l, p.id ≠ tid) →
      ((l.foldl (pollOne env) st).tasks.filter (fun x => x.id == tid))
        = st.tasks.filter (fun x => x.id == tid) := by
  induction l with
  | nil => intro st _; rfl
  | cons p l ih =>
    intro st h
    simp only [List.foldl_cons]
    rw [ih (pollOne env st p) (fun q hq => h q (List.mem_cons_of_mem p hq))]
    exact pollOne_filter_ne env st p tid (h p (List.mem_cons_self p l))

theorem pollOne_refresh_le (env : String → Except String RunwayTaskResponse)
    (st : PollState) (p : GenerationTask) :
    st.refreshCount ≤ (pollOne env st p).refreshCount := by
  cases hr : p.runway_task_id with
  | none => simp [pollOne, hr]
  | some rid =>
    cases he : env rid with
    | ok r =>
      by_cases hdiff : strToLower p.status ≠ r.status
      · simp [pollOne, hr, he, hdiff]
      · simp [pollOne, hr, he, hdiff]
    | error msg => simp [pollOne, hr, he]

theorem foldl_pollOne_refresh_le (env : String → Except String RunwayTaskResponse)
    (l : List GenerationTask) :
    ∀ st : PollState, st.refreshCount ≤ (l.foldl (pollOne env) st).refreshCount := by
  induction l with
  | nil => intro st; exact Nat.le_refl _
  | cons p l ih =>
    intro st
    exact Nat.le_trans (pollOne_refresh_le env st p) (ih (pollOne env st p))

/-- With no duplicate ids, the rows matching a member's id are exactly that
member. -/
theorem filter_id_eq_single (t : GenerationTask) (l : List GenerationTask)
    (hmem : t ∈ l) (hnd : (l.map GenerationTask.id).Nodup) :
    l.filter (fun x => x.id == t.id) = [t] := by
  induction l with
  | nil => cases hmem
  | cons a l ih =>
    rw [List.map_cons, List.nodup_cons] at hnd
    rcases List.mem_cons.mp hmem with rfl | hmem2
    · have hrest : l.filter (fun x => x.id == t.id) = [] := by
        rw [List.filter_eq_nil_iff]
        intro x hx hxe
        have : x.id = t.id := by simpa using hxe
        exact hnd.1 (this ▸ List.mem_map_of_mem GenerationTask.id hx)
      simp [List.filter_cons, hrest]
    · have hne : (a.id == t.id) = false := by
        have : a.id ≠ t.id := by
          intro he
          exact hnd.1 (he ▸ List.mem_map_of_mem GenerationTask.id hmem2)
        simpa using this
      simp only [List.filter_cons, hne, Bool.false_eq_true, if_false]
      exact ih hmem2 hnd.2

theorem nodup_split_ids (task : GenerationTask) (l1 l2 : List GenerationTask)
    (h : ((l1 ++ task :: l2).map GenerationTask.id).Nodup) :
    (∀ p ∈ l1, p.id ≠ task.id) ∧ (∀ p ∈ l2, p.id ≠ task.id) := by
  rw [List.map_append, List.nodup_append, List.map_cons, List.nodup_cons] at h
  refine ⟨fun p hp he => ?_, fun p hp he => ?_⟩
  · exact h.2.2 (List.mem_map_of_mem _ hp)
      (by rw [he]; exact List.mem_cons_self _ _)
  · exact h.2.1.1 (he ▸ List.mem_map_of_mem _ hp)

/-- Core row lemma: with unique row ids, after one poll tick the rows with a
polled task's id consist of exactly that row as transformed by its own poll
step. -/
theorem pollTasks_row (env : String → Except String RunwayTaskResponse)
    (st : PollState) (task : GenerationTask) (hmem : task ∈ st.tasks)
    (hn : (st.tasks.map GenerationTask.id).Nodup)
    (hp : task.status = "PENDING" ∨ task.status = "RUNNING") :
    (pollTasks env st).tasks.filter (fun x => x.id == task.id)
      = [pollRowResult env task] := by
  have hmemf : task ∈ tasksToPoll st := by
    rw [tasksToPoll, List.mem_filter]
    exact ⟨hmem, by rcases hp with h | h <;> simp [h]⟩
  obtain ⟨l1, l2, hsplit⟩ := List.append_of_mem hmemf
  have hnf : ((tasksToPoll st).map GenerationTask.id).Nodup :=
    List.Nodup.sublist (List.Sublist.map _ (List.filter_sublist _)) hn
  rw [hsplit] at hnf
  obtain ⟨h1, h2⟩ := nodup_split_ids task l1 l2 hnf
  rw [pollTasks, hsplit, List.foldl_append, List.foldl_cons]
  have hfilter1 : (l1.foldl (pollOne env) st).tasks.filter
      (fun x => x.id == task.id) = [task] := by
    rw [foldl_pollOne_filter_ne env task.id l1 st h1]
    exact filter_id_eq_single task st.tasks hmem hn
  rw [foldl_pollOne_filter_ne env task.id l2 _ h2]
  cases hr : task.runway_task_id with
  | none =>
    have h1s : pollOne env (l1.foldl (pollOne env) st) task
        = l1.foldl (pollOne env) st := by simp [pollOne, hr]
    have h2s : pollRowResult env task = task := by simp [pollRowResult, hr]
    rw [h1s, h2s]; exact hfilter1
  | some rid =>
    cases he : env rid with
    | ok r =>
      by_cases hdiff : strToLower task.status ≠ r.status
      · have h1s : pollOne env (l1.foldl (pollOne env) st) task =
            { tasks := applyUpdate (l1.foldl (pollOne env) st).tasks task.id
                (pollUpdate r),
              refreshCount := (l1.foldl (pollOne env) st).refreshCount + 1 } := by
          simp [pollOne, hr, he, hdiff]
        have h2s : pollRowResult env task = pollUpdate r task := by
          simp [pollRowResult, hr, he, hdiff]
        rw [h1s, h2s]
        rw [filter_applyUpdate_self (pollUpdate r) (fun _ => rfl) task.id _,
          hfilter1]
        rfl
      · have h1s : pollOne env (l1.foldl (pollOne env) st) task
            = l1.foldl (pollOne env) st := by simp [pollOne, hr, he, hdiff]
        have h2s : pollRowResult env task = task := by
          simp [pollRowResult, hr, he, hdiff]
        rw [h1s, h2s]; exact hfilter1
    | error msg =>
      have h1s : pollOne env (l1.foldl (pollOne env) st) task =
          { tasks := applyUpdate (l1.foldl (pollOne env) st).tasks task.id
              (pollFail msg),
            refreshCount := (l1.foldl (pollOne env) st).refreshCount + 1 } := by
        simp [pollOne, hr, he]
      have h2s : pollRowResult env task = pollFail msg task := by
        simp [pollRowResult, hr, he]
      rw [h1s, h2s]
      rw [filter_applyUpdate_self (pollFail msg) (fun _ => rfl) task.id _,
        hfilter1]
      rfl

/-- Rows of tasks that are not selected by the tick are left unchanged. -/
theorem pollTasks_not_polled (env : String → Except String RunwayTaskResponse)
    (st : PollState) (t : GenerationTask) (hmem : t ∈ st.tasks)
    (hn : (st.tasks.map GenerationTask.id).Nodup)
    (hnp : ¬(t.status = "PENDING" ∨ t.status = "RUNNING")) :
    (pollTasks env st).tasks.filter (fun x => x.id == t.id)
      = st.tasks.filter (fun x => x.id == t.id) := by
  apply foldl_pollOne_filter_ne
  intro p hp he
  obtain ⟨hpm, hps⟩ := List.mem_filter.mp hp
  have : p = t := List.inj_on_of_nodup_map hn hpm hmem he
  subst this
  apply hnp
  rcases Bool.or_eq_true _ _ |>.mp hps with h | h
  · exact Or.inl (by simpa using h)
  · exact Or.inr (by simpa using h)

/-- Progress of the refresh counter through a tick, for a polled task whose
own step refreshes. -/
theorem pollTasks_refresh_progress (env : String → Except String RunwayTaskResponse)
    (st : PollState) (task : GenerationTask) (hmemf : task ∈ tasksToPoll st)
    (hstep : ∀ st1 : PollState, st1.refreshCount < (pollOne env st1 task).refreshCount) :
    st.refreshCount < (pollTasks env st).refreshCount := by
  obtain ⟨l1, l2, hsplit⟩ := List.append_of_mem hmemf
  rw [pollTasks, hsplit, List.foldl_append, List.foldl_cons]
  exact Nat.lt_of_le_of_lt (foldl_pollOne_refresh_le env l1 st)
    (Nat.lt_of_lt_of_le (hstep _) (foldl_pollOne_refresh_le env l2 _))

/-! Fixtures used by the concrete witnesses below. -/

def mdEx : InitialMetadata :=
  ⟨"Alex", "Walk", 1, ["a", "b"], "char.mp4", "ref.mp4"⟩

def mkTaskEx (i : String) (rid : Option String) (stt : String) : GenerationTask :=
  ⟨i, "2024-01-01", "user1", rid, stt, mdEx,
    some "https://h/storage/v1/object/public/videos/user1/ref.mp4",
    some "https://h/storage/v1/object/public/videos/user1/char.mp4",
    none, none⟩

def envOkSucceeded : String → Except String RunwayTaskResponse :=
  fun _ => .ok ⟨"succeeded", some "https://x/out.mp4", none⟩

def envErrEx : String → Except String RunwayTaskResponse :=
  fun _ => .error "network down"

def taskDoneEx : GenerationTask := mkTaskEx "t1" (some "job-1") "SUCCEEDED"

def taskRunEx : GenerationTask := mkTaskEx "t2" (some "job-2") "RUNNING"

def taskPendEx : GenerationTask := mkTaskEx "t3" (some "job-3") "PENDING"

def stEx1 : PollState := ⟨[taskDoneEx, taskRunEx], 0⟩

def stEx2 : PollState := ⟨[taskRunEx], 0⟩

def stEx3 : PollState := ⟨[taskRunEx, taskPendEx], 0⟩

/-- C1: a poll tick only selects tasks whose stored status is `PENDING` or
`RUNNING`, so a task in a terminal status (`SUCCEEDED`, `FAILED`,
`ARCHIVED`) is never selected by the tick and its stored row is unchanged by
the tick: polling never moves a terminal task back to a non-terminal
status. -/
theorem poll_never_touches_terminal_tasks
    (env : String → Except String RunwayTaskResponse) (st : PollState)
    (t : GenerationTask) (hmem : t ∈ st.tasks)
    (hn : (st.tasks.map GenerationTask.id).Nodup)
    (ht : t.status = "SUCCEEDED" ∨ t.status = "FAILED" ∨ t.status = "ARCHIVED") :
    (∀ p ∈ tasksToPoll st, p.status = "PENDING" ∨ p.status = "RUNNING")
      ∧ t ∉ tasksToPoll st
      ∧ (pollTasks env st).tasks.filter (fun x => x.id == t.id)
          = st.tasks.filter (fun x => x.id == t.id) := by
  have hsel : ∀ p ∈ tasksToPoll st, p.status = "PENDING" ∨ p.status = "RUNNING" := by
    intro p hp
    obtain ⟨_, hps⟩ := List.mem_filter.mp hp
    rcases Bool.or_eq_true _ _ |>.mp hps with h | h
    · exact Or.inl (by simpa using h)
    · exact Or.inr (by simpa using h)
  have hnp : ¬(t.status = "PENDING" ∨ t.status = "RUNNING") := by
    rcases ht with h | h | h <;> rw [h] <;> decide
  exact ⟨hsel, fun hmemf => hnp (hsel t hmemf),
    pollTasks_not_polled env st t hmem hn hnp⟩

theorem poll_never_touches_terminal_tasks_witness :
    taskDoneEx ∉ tasksToPoll stEx1
      ∧ (pollTasks envOkSucceeded stEx1).tasks.filter
            (fun x => x.id == taskDoneEx.id)
          = stEx1.tasks.filter (fun x => x.id == taskDoneEx.id) := by
  have h := poll_never_touches_terminal_tasks envOkSucceeded stEx1 taskDoneEx
    (by decide) (by decide) (by decide)
  exact ⟨h.2.1, h.2.2⟩

/-- C2: for a polled task whose external query succeeds, the stored row is
updated exactly when the reported status differs from the stored one (the
store keeps statuses upper-cased, so the code compares the lower-cased stored
status with the reported status); the update writes the upper-cased reported
status, the output URL when present (else null) and the error when present
(else null), and is followed by a state reload; in the succeeded scenario the
row becomes `SUCCEEDED` with `output_video_url` set and is excluded from the
next poll tick. -/
theorem poll_update_semantics
    (env : String → Except String RunwayTaskResponse) (st : PollState)
    (task : GenerationTask) (rid : String) (r : RunwayTaskResponse)
    (hmem : task ∈ st.tasks)
    (hn : (st.tasks.map GenerationTask.id).Nodup)
    (hp : task.status = "PENDING" ∨ task.status = "RUNNING")
    (hrid : task.runway_task_id = some rid) (henv : env rid = .ok r) :
    (r.status = strToLower task.status →
        (pollTasks env st).tasks.filter (fun x => x.id == task.id) = [task])
      ∧ (r.status ≠ strToLower task.status →
          (pollTasks env st).tasks.filter (fun x => x.id == task.id)
              = [pollUpdate r task]
            ∧ st.refreshCount < (pollTasks env st).refreshCount)
      ∧ (r.status = "succeeded" → ∀ u, r.output_uri = some u → u ≠ "" →
          (pollTasks env st).tasks.filter (fun x => x.id == task.id)
              = [{ task with
                   status := "SUCCEEDED",
                   output_video_url := some u,
                   error_message := jsOrNone r.error }]
            ∧ ∀ p ∈ tasksToPoll (pollTasks env st), p.id ≠ task.id) := by
  have hrow := pollTasks_row env st task hmem hn hp
  have hRR : pollRowResult env task
      = if strToLower task.status ≠ r.status then pollUpdate r task else task := by
    simp [pollRowResult, hrid, henv]
  have hupd : ∀ hdiff : r.status ≠ strToLower task.status,
      (pollTasks env st).tasks.filter (fun x => x.id == task.id)
        = [pollUpdate r task] := by
    intro hdiff
    rw [hrow, hRR, if_pos (fun h => hdiff h.symm)]
  refine ⟨?_, ?_, ?_⟩
  · intro hsame
    rw [hrow, hRR, if_neg (fun hne => hne hsame.symm)]
  · intro hdiff
    refine ⟨hupd hdiff, ?_⟩
    apply pollTasks_refresh_progress env st task
    · rw [tasksToPoll, List.mem_filter]
      exact ⟨hmem, by rcases hp with h | h <;> simp [h]⟩
    · intro st1
      have hc : strToLower task.status ≠ r.status := fun h => hdiff h.symm
      have hstep : pollOne env st1 task =
          { tasks := applyUpdate st1.tasks task.id (pollUpdate r),
            refreshCount := st1.refreshCount + 1 } := by
        simp [pollOne, hrid, henv, hc]
      rw [hstep]
      exact Nat.lt_succ_self _
  · intro hsucc u hu hune
    have hdiff : r.status ≠ strToLower task.status := by
      rcases hp with h | h <;> rw [hsucc, h] <;> decide
    have h1 : strToUpper r.status = "SUCCEEDED" := by rw [hsucc]; decide
    have h2 : jsOrNone r.output_uri = some u := by
      rw [hu]; simp [jsOrNone, hune]
    have hrec : pollUpdate r task
        = { task with
            status := "SUCCEEDED", output_video_url := some u,
            error_message := jsOrNone r.error } := by
      simp [pollUpdate, h1, h2]
    have hfil := hupd hdiff
    rw [hrec] at hfil
    refine ⟨hfil, ?_⟩
    intro p hpf he
    have hpmem : p ∈ (pollTasks env st).tasks := (List.mem_filter.mp hpf).1
    have hpin : p ∈ (pollTasks env st).tasks.filter
        (fun x => x.id == task.id) :=
      List.mem_filter.mpr ⟨hpmem, by simp [he]⟩
    rw [hfil] at hpin
    have hpe : p = { task with
        status := "SUCCEEDED", output_video_url := some u,
        error_message := jsOrNone r.error } := by simpa using hpin
    have hstat := (List.mem_filter.mp hpf).2
    rw [hpe] at hstat
    simp at hstat

theorem poll_update_semantics_witness :
    (pollTasks envOkSucceeded stEx2).tasks.filter
        (fun x => x.id == taskRunEx.id)
      = [{ taskRunEx with
           status := "SUCCEEDED",
           output_video_url := some "https://x/out.mp4",
           error_message := none }]
    ∧ ∀ p ∈ tasksToPoll (pollTasks envOkSucceeded stEx2), p.id ≠ taskRunEx.id := by
  have h := poll_update_semantics envOkSucceeded stEx2 taskRunEx "job-2"
    ⟨"succeeded", some "https://x/out.mp4", none⟩
    (by decide) (by decide) (by decide) rfl rfl
  exact h.2.2 rfl "https://x/out.mp4" rfl (by decide)

/-- C3: a poll exception for one task writes `FAILED` with the exception
text as `error_message` to that task's row only; every other task's row is
still handled by its own poll step (updated when the task was polled,
untouched otherwise), so the failure neither propagates nor stops the rest
of the tick. -/
theorem poll_exception_isolated
    (env : String → Except String RunwayTaskResponse) (st : PollState)
    (task : GenerationTask) (rid msg : String)
    (hmem : task ∈ st.tasks)
    (hn : (st.tasks.map GenerationTask.id).Nodup)
    (hp : task.status = "PENDING" ∨ task.status = "RUNNING")
    (hrid : task.runway_task_id = some rid) (henv : env rid = .error msg) :
    (pollTasks env st).tasks.filter (fun x => x.id == task.id)
        = [{ task with status := "FAILED", error_message := some msg }]
      ∧ ∀ t2 ∈ st.tasks, t2.id ≠ task.id →
          (pollTasks env st).tasks.filter (fun x => x.id == t2.id)
            = if t2.status = "PENDING" ∨ t2.status = "RUNNING"
              then [pollRowResult env t2]
              else st.tasks.filter (fun x => x.id == t2.id) := by
  constructor
  · have hrow := pollTasks_row env st task hmem hn hp
    have hRR : pollRowResult env task = pollFail msg task := by
      simp [pollRowResult, hrid, henv]
    rw [hrow, hRR]
    rfl
  · intro t2 ht2 _
    by_cases hp2 : t2.status = "PENDING" ∨ t2.status = "RUNNING"
    · rw [if_pos hp2]
      exact pollTasks_row env st t2 ht2 hn hp2
    · rw [if_neg hp2]
      exact pollTasks_not_polled env st t2 ht2 hn hp2

theorem poll_exception_isolated_witness :
    (pollTasks envErrEx stEx3).tasks.filter (fun x => x.id == taskRunEx.id)
        = [{ taskRunEx with
             status := "FAILED",
             error_message := some "network down" }]
      ∧ (pollTasks envErrEx stEx3).tasks.filter (fun x => x.id == taskPendEx.id)
        = if taskPendEx.status = "PENDING" ∨ taskPendEx.status = "RUNNING"
          then [pollRowResult envErrEx taskPendEx]
          else stEx3.tasks.filter (fun x => x.id == taskPendEx.id) := by
  have h := poll_exception_isolated envErrEx stEx3 taskRunEx "job-2"
    "network down" (by decide) (by decide) (by decide) rfl rfl
  exact ⟨h.1, h.2 taskPendEx (by decide) (by decide)⟩

/-! Categories and batch ingestion (`addAssets`, `addCategoryIfNeeded` and
`addCategoryItem` in `src/App.tsx`). -/

/-- The three fixed category kinds (`src/types.ts`). -/
inductive CategoryType where
  | actors
  | movements
  | performanceActors
deriving DecidableEq, Repr

/-- The string a `CategoryType` is written as in the store and in template
keys. -/
def CategoryType.str : CategoryType → String
  | .actors => "actors"
  | .movements => "movements"
  | .performanceActors => "performanceActors"

/-- A stored category row (`src/types.ts`). -/
structure Category where
  id : Nat
  created_at : String
  type : CategoryType
  name : String
deriving DecidableEq, Repr

/-- A category row to insert: the `{ name, type }` payload built by
`addAssets` and `addCategoryItem`. -/
structure NewCategory where
  name : String
  type : CategoryType
deriving DecidableEq, Repr

/-- The per-kind name sets of `existingCategoryMap`: the names of the current
categories of each kind. -/
def existingNames (cats : List Category) (t : CategoryType) : List String :=
  (cats.filter (fun c => c.type == t)).map (fun c => c.name)

/-- The dedup-map key of `addCategoryIfNeeded`, the template literal
`type-name`. -/
def keyOf (t : CategoryType) (name : String) : String :=
  t.str ++ "-" ++ name

/-- `addCategoryIfNeeded` from `addAssets`: skip an empty name or one already
present in that kind; otherwise insert into the insertion-ordered dedup map
(an association list) unless its key is already there. -/
def addCategoryIfNeeded (em : CategoryType → List String)
    (acc : List (String × NewCategory)) (name : String) (t : CategoryType) :
    List (String × NewCategory) :=
  if name ≠ "" ∧ name ∉ em t then
    if acc.any (fun kv => kv.1 == keyOf t name) then acc
    else acc ++ [(keyOf t name, ⟨name, t⟩)]
  else acc

/-- A staged source file (`src/types.ts`), keeping the fields `addAssets`
reads; the view-only fields (`id`, `previewUrl`, the `File` handle) are kept
as the name and byte size of the file. -/
structure StagedSourceFile where
  file_name : String
  file_size_bytes : Nat
  actor_name : String
  movement_type : String
  performance_actor : String
  take_number : Nat
  tags : String
  resolution : Nat × Nat
deriving DecidableEq, Repr

/-- A staged result file (`src/types.ts`). -/
structure StagedResultFile where
  file_name : String
  file_size_bytes : Nat
  actor_name : String
  resolution : Nat × Nat
deriving DecidableEq, Repr

/-- A client-local upload batch: one source capture and its result files. -/
structure PerformanceBatch where
  sourceFile : StagedSourceFile
  resultFiles : List StagedResultFile
deriving DecidableEq, Repr

/-- The category (name, kind) pairs one batch requests, in the order the
`addAssets` loop issues them: the source's performance actor as a
performance actor, its movement, the performance actor again as an actor,
then each result file's actor name as an actor. -/
def batchCategoryRequests (b : PerformanceBatch) : List (String × CategoryType) :=
  [(b.sourceFile.performance_actor, .performanceActors),
   (b.sourceFile.movement_type, .movements),
   (b.sourceFile.performance_actor, .actors)]
    ++ b.resultFiles.map (fun r => (r.actor_name, .actors))

def categoryRequests (batches : List PerformanceBatch) : List (String × CategoryType) :=
  (batches.map batchCategoryRequests).flatten

/-- The dedup map `newCategories` after the `addAssets` loop over the
batches. -/
def newCategoriesOf (cats : List Category) (batches : List PerformanceBatch) :
    List (String × NewCategory) :=
  (categoryRequests batches).foldl
    (fun acc p => addCategoryIfNeeded (existingNames cats) acc p.1 p.2) []

/-- Tag parsing in `addAssets`:
`source.tags.split(',').map(t => t.trim()).filter(Boolean)`. -/
def parseTags (s : String) : List String :=
  ((jsSplit s ",").map jsTrim).filter (fun t => t ≠ "")

/-- An asset row as pushed onto `newAssetsData` (no public URL yet).
`file_size_bytes` keeps the raw byte count; the source formats it as a
floating-point `MB` display string, which carries no further information. -/
structure NewAssetData where
  file_path : String
  actor_name : String
  movement_type : String
  performance_actor : String
  take_number : Nat
  tags : List String
  resolution : Nat × Nat
  file_size_bytes : Nat
  is_favorite : Bool
deriving DecidableEq, Repr

/-- An asset row as handed to the `videos` batch insert, after
`getPublicUrl`. -/
structure NewAssetRow extends NewAssetData where
  video_url : String
deriving DecidableEq, Repr

/-- The row built from a source file: the source video is performed by the
performance actor, so `actor_name` is the performance actor. -/
def sourceRow (path : String) (s : StagedSourceFile) : NewAssetData :=
  { file_path := path, actor_name := s.performance_actor,
    movement_type := s.movement_type, performance_actor := s.performance_actor,
    take_number := s.take_number, tags := parseTags s.tags,
    resolution := s.resolution, file_size_bytes := s.file_size_bytes,
    is_favorite := false }

/-- The row built from a result file: its own actor name and resolution, the
source's movement, performance actor, take number and tags. -/
def resultRow (path : String) (s : StagedSourceFile) (r : StagedResultFile) :
    NewAssetData :=
  { file_path := path, actor_name := r.actor_name,
    movement_type := s.movement_type, performance_actor := s.performance_actor,
    take_number := s.take_number, tags := parseTags s.tags,
    resolution := r.resolution, file_size_bytes := r.file_size_bytes,
    is_favorite := false }

/-- Accumulator of the `addAssets` batch loop: how many `uuidv4` calls were
consumed, the paths pushed onto `allFilesToUpload`, and the rows pushed onto
`newAssetsData`. -/
structure BuildAcc where
  counter : Nat
  files : List String
  rows : List NewAssetData
deriving DecidableEq, Repr

/-- A storage path assigned to a staged file, scoped to the user with a fresh
random suffix. -/
def pathFor (uuid : Nat → String) (uid : String) (k : Nat) (fname : String) : String :=
  uid ++ "/" ++ uuid k ++ "-" ++ fname

/-- The inner iteration of the `addAssets` loop: stage one result file and
push its row. -/
def processResult (uuid : Nat → String) (uid : String) (s : StagedSourceFile)
    (a : BuildAcc) (r : StagedResultFile) : BuildAcc :=
  let rp := pathFor uuid uid a.counter r.file_name
  ⟨a.counter + 1, a.files ++ [rp], a.rows ++ [resultRow rp s r]⟩

/-- One iteration of the `addAssets` loop over batches: stage the source
file and its row, then each result file and its row, in order. -/
def processBatch (uuid : Nat → String) (uid : String) (acc : BuildAcc)
    (b : PerformanceBatch) : BuildAcc :=
  let sp := pathFor uuid uid acc.counter b.sourceFile.file_name
  b.resultFiles.foldl (processResult uuid uid b.sourceFile)
    ⟨acc.counter + 1, acc.files ++ [sp], acc.rows ++ [sourceRow sp b.sourceFile]⟩

/-- The external collaborators of `addAssets`: the uuid source, the per-path
object-store upload outcome, `getPublicUrl`, and whether the two row inserts
succeed. -/
structure UploadEnv where
  uuid : Nat → String
  uploadOk : String → Bool
  publicUrl : String → String
  categoriesInsertOk : Bool
  videosInsertOk : Bool

/-- The observable effects of one `addAssets` call. -/
structure UploadOutcome where
  categoriesInsertRequest : List NewCategory
  uploadRequests : List String
  uploadResults : List (String × Bool)
  videosInsertRequest : List NewAssetRow
  reloaded : Bool
deriving DecidableEq, Repr

/-- `addAssets` from `src/App.tsx`: build the dedup map and the staged
rows; insert new categories (a failure there throws and aborts the whole
ingestion); upload every staged file, with the per-file outcomes collected by
`Promise.all` but never inspected; resolve a public URL per path; batch-insert
the asset rows; reload on success. -/
def addAssets (env : UploadEnv) (uid : String) (cats : List Category)
    (batches : List PerformanceBatch) : UploadOutcome :=
  let newCats := (newCategoriesOf cats batches).map Prod.snd
  let build := batches.foldl (processBatch env.uuid uid) ⟨0, [], []⟩
  if newCats ≠ [] ∧ env.categoriesInsertOk = false then
    { categoriesInsertRequest := newCats, uploadRequests := [],
      uploadResults := [], videosInsertRequest := [], reloaded := false }
  else
    { categoriesInsertRequest := newCats,
      uploadRequests := build.files,
      uploadResults := build.files.map (fun p => (p, env.uploadOk p)),
      videosInsertRequest := build.rows.map
        (fun r => { toNewAssetData := r, video_url := env.publicUrl r.file_path }),
      reloaded := env.videosInsertOk }

/-- `addCategoryItem` from `src/App.tsx`: return the insert payload that is
sent, or `none` when the guard `!name || name.trim() === '' || !userId`
returns early.  No duplicate check is performed. -/
def addCategoryItem (userId : Option String) (t : CategoryType) (name : String) :
    Option NewCategory :=
  if name = "" ∨ jsTrim name = "" ∨ userId = none then none
  else some ⟨name, t⟩

/-! Properties of the category dedup map. -/

theorem keyOf_data (t : CategoryType) (n : String) :
    (keyOf t n).data = t.str.data ++ '-' :: n.data := by
  have h := String.data_append (t.str ++ "-") n
  rw [keyOf, h, String.data_append]
  simp

/-- The template key `type-name` determines the pair: the three kind strings
differ in their first character and the inserted dash separates them from the
name. -/
theorem keyOf_inj (t1 t2 : CategoryType) (n1 n2 : String)
    (h : keyOf t1 n1 = keyOf t2 n2) : t1 = t2 ∧ n1 = n2 := by
  have hd := congrArg String.data h
  rw [keyOf_data, keyOf_data] at hd
  cases t1 <;> cases t2 <;>
    simp only [CategoryType.str] at hd <;>
    first
    | (refine ⟨rfl, ?_⟩
       apply String.ext
       simpa using hd)
    | (exfalso; simp at hd)

/-- The invariant of the dedup map: each entry is keyed by its own pair, its
name is non-empty and not an existing name of its kind. -/
def goodEntry (em : CategoryType → List String) (kv : String × NewCategory) : Prop :=
  kv.1 = keyOf kv.2.type kv.2.name ∧ kv.2.name ≠ "" ∧ kv.2.name ∉ em kv.2.type

theorem addCategoryIfNeeded_subset (em : CategoryType → List String)
    (acc : List (String × NewCategory)) (name : String) (t : CategoryType) :
    ∀ kv ∈ acc, kv ∈ addCategoryIfNeeded em acc name t := by
  intro kv hkv
  unfold addCategoryIfNeeded
  split
  · split
    · exact hkv
    · exact List.mem_append_left _ hkv
  · exact hkv

theorem addCategoryIfNeeded_good (em : CategoryType → List String)
    (acc : List (String × NewCategory)) (name : String) (t : CategoryType)
    (hacc : ∀ kv ∈ acc, goodEntry em kv) :
    ∀ kv ∈ addCategoryIfNeeded em acc name t, goodEntry em kv := by
  intro kv hkv
  unfold addCategoryIfNeeded at hkv
  by_cases h1 : name ≠ "" ∧ name ∉ em t
  · rw [if_pos h1] at hkv
    by_cases h2 : (acc.any fun kv => kv.1 == keyOf t name) = true
    · rw [if_pos h2] at hkv
      exact hacc kv hkv
    · rw [if_neg h2] at hkv
      rcases List.mem_append.mp hkv with h | h
      · exact hacc kv h
      · have he : kv = (keyOf t name, ⟨name, t⟩) := by simpa using h
        subst he
        exact ⟨rfl, h1.1, h1.2⟩
  · rw [if_neg h1] at hkv
    exact hacc kv hkv

theorem addCategoryIfNeeded_keys_nodup (em : CategoryType → List String)
    (acc : List (String × NewCategory)) (name : String) (t : CategoryType)
    (hnd : (acc.map Prod.fst).Nodup) :
    ((addCategoryIfNeeded em acc name t).map Prod.fst).Nodup := by
  unfold addCategoryIfNeeded
  by_cases h1 : name ≠ "" ∧ name ∉ em t
  · rw [if_pos h1]
    by_cases h2 : (acc.any fun kv => kv.1 == keyOf t name) = true
    · rw [if_pos h2]; exact hnd
    · rw [if_neg h2, List.map_append, List.nodup_append]
      refine ⟨hnd, List.nodup_singleton _, ?_⟩
      intro x hx hxk
      have hxe : x = keyOf t name := by simpa using hxk
      subst hxe
      obtain ⟨kv, hkv, hfst⟩ := List.mem_map.mp hx
      apply h2
      rw [List.any_eq_true]
      exact ⟨kv, hkv, by simp [hfst]⟩
  · rw [if_neg h1]; exact hnd

theorem addCategoryIfNeeded_key_present (em : CategoryType → List String)
    (acc : List (String × NewCategory)) (name : String) (t : CategoryType)
    (helig : name ≠ "" ∧ name ∉ em t) :
    ∃ kv ∈ addCategoryIfNeeded em acc name t, kv.1 = keyOf t name := by
  unfold addCategoryIfNeeded
  rw [if_pos helig]
  by_cases h2 : (acc.any fun kv => kv.1 == keyOf t name) = true
  · rw [if_pos h2]
    obtain ⟨kv, hkv, hb⟩ := List.any_eq_true.mp h2
    exact ⟨kv, hkv, by simpa using hb⟩
  · rw [if_neg h2]
    exact ⟨(keyOf t name, ⟨name, t⟩),
      List.mem_append_right _ (List.mem_singleton_self _), rfl⟩

theorem reconcile_fold_good (em : CategoryType → List String)
    (reqs : List (String × CategoryType)) :
    ∀ acc, (∀ kv ∈ acc, goodEntry em kv) →
      ∀ kv ∈ reqs.foldl (fun acc p => addCategoryIfNeeded em acc p.1 p.2) acc,
        goodEntry em kv := by
  induction reqs with
  | nil => intro acc hacc; exact hacc
  | cons p reqs ih =>
    intro acc hacc
    simp only [List.foldl_cons]
    exact ih _ (addCategoryIfNeeded_good em acc p.1 p.2 hacc)

theorem reconcile_fold_keys_nodup (em : CategoryType → List String)
    (reqs : List (String × CategoryType)) :
    ∀ acc, (acc.map Prod.fst).Nodup →
      ((reqs.foldl (fun acc p => addCategoryIfNeeded em acc p.1 p.2) acc).map
        Prod.fst).Nodup := by
  induction reqs with
  | nil => intro acc hacc; exact hacc
  | cons p reqs ih =>
    intro acc hacc
    simp only [List.foldl_cons]
    exact ih _ (addCategoryIfNeeded_keys_nodup em acc p.1 p.2 hacc)

theorem reconcile_fold_subset (em : CategoryType → List String)
    (reqs : List (String × CategoryType)) :
    ∀ acc, ∀ kv ∈ acc,
      kv ∈ reqs.foldl (fun acc p => addCategoryIfNeeded em acc p.1 p.2) acc := by
  induction reqs with
  | nil => intro acc kv hkv; exact hkv
  | cons p reqs ih =>
    intro acc kv hkv
    simp only [List.foldl_cons]
    exact ih _ kv (addCategoryIfNeeded_subset em acc p.1 p.2 kv hkv)

theorem reconcile_fold_key_present (em : CategoryType → List String)
    (reqs : List (String × CategoryType)) :
    ∀ acc n t, (n, t) ∈ reqs → n ≠ "" → n ∉ em t →
      ∃ kv ∈ reqs.foldl (fun acc p => addCategoryIfNeeded em acc p.1 p.2) acc,
        kv.1 = keyOf t n := by
  induction reqs with
  | nil => intro acc n t h; cases h
  | cons p reqs ih =>
    intro acc n t hmem hne hnotin
    simp only [List.foldl_cons]
    rcases List.mem_cons.mp hmem with heq | hmem2
    · obtain ⟨kv, hkv, hk⟩ := addCategoryIfNeeded_key_present em acc n t ⟨hne, hnotin⟩
      rw [← heq]
      exact ⟨kv, reconcile_fold_subset em reqs _ kv hkv, hk⟩
    · exact ih _ n t hmem2 hne hnotin

theorem nodup_map_of_nodup_map_comp {α β γ : Type} (l : List α) (f : α → β)
    (g : α → γ) (F : γ → β) (hc : ∀ x ∈ l, f x = F (g x))
    (h : (l.map f).Nodup) : (l.map g).Nodup := by
  have he : l.map f = (l.map g).map F := by
    rw [List.map_map]
    exact List.map_congr_left hc
  rw [he] at h
  exact List.Nodup.of_map F h

/-- C5: category creation is idempotent: the dedup map holds at most one
entry per (name, kind) pair, skips empty names and names already present in
that kind, and contains exactly one entry for any eligible pair the batch
list requests (however many times it is requested). -/
theorem category_creation_idempotent (cats : List Category)
    (batches : List PerformanceBatch) :
    (((newCategoriesOf cats batches).map Prod.snd).map
        (fun c => (c.name, c.type))).Nodup
      ∧ (∀ kv ∈ newCategoriesOf cats batches,
          kv.2.name ≠ "" ∧ kv.2.name ∉ existingNames cats kv.2.type)
      ∧ (∀ n t, (n, t) ∈ categoryRequests batches → n ≠ "" →
          n ∉ existingNames cats t →
          (⟨n, t⟩ : NewCategory) ∈ (newCategoriesOf cats batches).map Prod.snd) := by
  have hgood : ∀ kv ∈ newCategoriesOf cats batches,
      goodEntry (existingNames cats) kv :=
    reconcile_fold_good (existingNames cats) (categoryRequests batches) []
      (by intro kv h; cases h)
  have hkeys : ((newCategoriesOf cats batches).map Prod.fst).Nodup :=
    reconcile_fold_keys_nodup (existingNames cats) (categoryRequests batches) []
      List.nodup_nil
  refine ⟨?_, ?_, ?_⟩
  · rw [List.map_map]
    exact nodup_map_of_nodup_map_comp (newCategoriesOf cats batches) Prod.fst
      ((fun c => (c.name, c.type)) ∘ Prod.snd) (fun p => keyOf p.2 p.1)
      (by intro kv hkv; exact (hgood kv hkv).1) hkeys
  · intro kv hkv
    exact ⟨(hgood kv hkv).2.1, (hgood kv hkv).2.2⟩
  · intro n t hreq hne hnotin
    obtain ⟨kv, hkv, hk⟩ := reconcile_fold_key_present (existingNames cats)
      (categoryRequests batches) [] n t hreq hne hnotin
    obtain ⟨k, vn, vt⟩ := kv
    have hg := hgood (k, ⟨vn, vt⟩) hkv
    have hkey : keyOf vt vn = keyOf t n := by
      rw [← hg.1]; exact hk
    obtain ⟨ht, hn⟩ := keyOf_inj vt t vn n hkey
    subst ht; subst hn
    exact List.mem_map.mpr ⟨(k, ⟨vn, vt⟩), hkv, rfl⟩

/-! Alignment of staged upload paths and asset rows. -/

theorem resultFold_align (uuid : Nat → String) (uid : String)
    (s : StagedSourceFile) (rs : List StagedResultFile) :
    ∀ a : BuildAcc, a.rows.map (fun r => r.file_path) = a.files →
      ((rs.foldl (processResult uuid uid s) a).rows.map (fun r => r.file_path))
        = (rs.foldl (processResult uuid uid s) a).files := by
  induction rs with
  | nil => intro a h; exact h
  | cons r rs ih =>
    intro a h
    simp only [List.foldl_cons]
    apply ih
    simp [processResult, resultRow, h]

theorem batchFold_align (uuid : Nat → String) (uid : String)
    (batches : List PerformanceBatch) :
    ∀ a : BuildAcc, a.rows.map (fun r => r.file_path) = a.files →
      ((batches.foldl (processBatch uuid uid) a).rows.map (fun r => r.file_path))
        = (batches.foldl (processBatch uuid uid) a).files := by
  induction batches with
  | nil => intro a h; exact h
  | cons b bs ih =>
    intro a h
    simp only [List.foldl_cons, processBatch]
    apply ih
    apply resultFold_align
    simp [sourceRow, h]

/-- When the category insert succeeds (or is empty), `addAssets` runs the
whole pipeline. -/
theorem addAssets_not_aborted (env : UploadEnv) (uid : String)
    (cats : List Category) (batches : List PerformanceBatch)
    (hcat : env.categoriesInsertOk = true) :
    addAssets env uid cats batches =
      { categoriesInsertRequest := (newCategoriesOf cats batches).map Prod.snd,
        uploadRequests :=
          (batches.foldl (processBatch env.uuid uid) ⟨0, [], []⟩).files,
        uploadResults :=
          (batches.foldl (processBatch env.uuid uid) ⟨0, [], []⟩).files.map
            (fun p => (p, env.uploadOk p)),
        videosInsertRequest :=
          (batches.foldl (processBatch env.uuid uid) ⟨0, [], []⟩).rows.map
            (fun r => { toNewAssetData := r,
                        video_url := env.publicUrl r.file_path }),
        reloaded := env.videosInsertOk } := by
  simp [addAssets, hcat]

/-! Fixtures for the ingestion scenario. -/

def srcEx : StagedSourceFile :=
  ⟨"src.mp4", 0, "", "Walk", "Alex", 1, "a, b", (720, 1280)⟩

def resEx : StagedResultFile := ⟨"res.mp4", 0, "Nova", (720, 1280)⟩

def batchEx : PerformanceBatch := ⟨srcEx, [resEx]⟩

def envUpEx : UploadEnv :=
  ⟨fun _ => "u", fun _ => true, fun p => "https://pub/" ++ p, true, true⟩

/-- C4: on the scenario batch (source: performance actor Alex, movement Walk,
tags "a, b"; one result file with actor Nova) with no pre-existing
categories, ingestion inserts exactly the four category rows
(performanceActors, Alex), (actors, Alex), (movements, Walk), (actors, Nova)
and exactly two asset rows, both carrying tags ["a", "b"]. -/
theorem ingest_scenario_categories_and_rows :
    ((addAssets envUpEx "user1" [] [batchEx]).categoriesInsertRequest).Perm
        [⟨"Alex", .performanceActors⟩, ⟨"Alex", .actors⟩,
         ⟨"Walk", .movements⟩, ⟨"Nova", .actors⟩]
      ∧ (addAssets envUpEx "user1" [] [batchEx]).videosInsertRequest.length = 2
      ∧ (addAssets envUpEx "user1" [] [batchEx]).videosInsertRequest.map
          (fun r => r.tags) = [["a", "b"], ["a", "b"]] := by
  decide

theorem category_creation_idempotent_witness :
    (((newCategoriesOf [] [batchEx, batchEx]).map Prod.snd).map
        (fun c => (c.name, c.type))).Nodup
      ∧ (⟨"Alex", CategoryType.actors⟩ : NewCategory)
          ∈ (newCategoriesOf [] [batchEx, batchEx]).map Prod.snd := by
  have h := category_creation_idempotent [] [batchEx, batchEx]
  exact ⟨h.1, h.2.2 "Alex" .actors (by decide) (by decide) (by decide)⟩

/-- C8: individual file-upload outcomes are never inspected: the asset rows
handed to the batch insert are the same whatever the per-path upload
outcomes, and one row is inserted per uploaded path, so a row can point at a
path whose upload failed. -/
theorem ingest_ignores_upload_outcomes (env : UploadEnv) (g : String → Bool)
    (uid : String) (cats : List Category) (batches : List PerformanceBatch)
    (hcat : env.categoriesInsertOk = true) :
    (addAssets { env with uploadOk := g } uid cats batches).videosInsertRequest
        = (addAssets env uid cats batches).videosInsertRequest
      ∧ (addAssets env uid cats batches).videosInsertRequest.map
          (fun r => r.file_path)
        = (addAssets env uid cats batches).uploadRequests := by
  rw [addAssets_not_aborted env uid cats batches hcat,
    addAssets_not_aborted { env with uploadOk := g } uid cats batches hcat]
  refine ⟨rfl, ?_⟩
  rw [List.map_map]
  exact batchFold_align env.uuid uid batches ⟨0, [], []⟩ rfl

theorem ingest_ignores_upload_outcomes_witness :
    (addAssets { envUpEx with uploadOk := fun _ => false }
        "user1" [] [batchEx]).videosInsertRequest
      = (addAssets envUpEx "user1" [] [batchEx]).videosInsertRequest
    ∧ (addAssets envUpEx "user1" [] [batchEx]).videosInsertRequest.map
        (fun r => r.file_path)
      = (addAssets envUpEx "user1" [] [batchEx]).uploadRequests :=
  ingest_ignores_upload_outcomes envUpEx (fun _ => false) "user1" [] [batchEx] rfl

/-- C10: the explicit add-category entry point issues its remote insert
exactly when the supplied name is non-empty after trimming and a user is
logged in; it consults no existing categories, so a (name, kind) pair already
present still issues the insert. -/
theorem add_category_no_duplicate_check (uid : Option String) (t : CategoryType)
    (name : String) (cats : List Category) :
    (addCategoryItem uid t name = some ⟨name, t⟩
        ↔ (jsTrim name ≠ "" ∧ uid ≠ none))
      ∧ (name ∈ existingNames cats t → jsTrim name ≠ "" → ∀ u, uid = some u →
          addCategoryItem uid t name = some ⟨name, t⟩) := by
  have hiff : addCategoryItem uid t name = some ⟨name, t⟩
      ↔ (jsTrim name ≠ "" ∧ uid ≠ none) := by
    constructor
    · intro h
      by_cases hc : name = "" ∨ jsTrim name = "" ∨ uid = none
      · rw [addCategoryItem, if_pos hc] at h
        cases h
      · push_neg at hc
        exact ⟨hc.2.1, hc.2.2⟩
    · rintro ⟨h1, h2⟩
      have hne : ¬(name = "" ∨ jsTrim name = "" ∨ uid = none) := by
        push_neg
        refine ⟨?_, h1, h2⟩
        intro he
        apply h1
        rw [he]
        rfl
      rw [addCategoryItem, if_neg hne]
  refine ⟨hiff, ?_⟩
  intro _ h1 u hu
  apply hiff.mpr
  refine ⟨h1, ?_⟩
  rw [hu]
  exact fun h => Option.noConfusion h

def catAlexEx : Category := ⟨1, "2024-01-01", .actors, "Alex"⟩

theorem add_category_no_duplicate_check_witness :
    addCategoryItem (some "user1") CategoryType.actors "Alex"
      = some ⟨"Alex", CategoryType.actors⟩ := by
  have h := add_category_no_duplicate_check (some "user1") .actors "Alex" [catAlexEx]
  exact h.2 (by decide) (by decide) "user1" rfl

/-! Generation-task deletion and gallery promotion (`deleteGenerationTask`
and `saveGeneratedVideoToGallery` in `src/App.tsx`). -/

/-- `Response.ok` of the fetch API: a 2xx status code. -/
def respOk (code : Nat) : Bool := decide (200 ≤ code ∧ code < 300)

/-- Path extraction for a stored input object:
`new URL(url).pathname.split('/videos/')[1]`.  For the URLs this app builds
(scheme, host without slashes, no query string) the marker `/videos/` occurs
only inside the pathname, so splitting the whole URL agrees with splitting
the pathname; a missing second piece (JS `undefined`) is `none`. -/
def urlStorageKey (url : String) : Option String :=
  (jsSplit url "/videos/")[1]?

/-- External collaborators of `deleteGenerationTask`: the `DELETE /jobs/id`
proxy call (`Except.error` is a thrown network exception, `Except.ok` the
HTTP status code) and whether the row delete succeeds. -/
structure CancelEnv where
  cancelResult : String → Except String Nat
  dbDeleteOk : Bool

/-- The observable effects of one `deleteGenerationTask` call. -/
structure TaskDeleteOutcome where
  tasks : List GenerationTask
  cancelCalls : List String
  warned : Bool
  reloaded : Bool
  storageRemoveRequest : Option (List (Option String))
deriving DecidableEq, Repr

/-- `deleteGenerationTask` from `src/App.tsx`: optimistically remove the
task locally; if it was still `PENDING`/`RUNNING` with a known external id,
best-effort cancel it (a non-ok response other than 404 logs a warning; 404
means already settled; a thrown fetch error is swallowed); delete the row
(reloading on a row-delete error); then remove the temporary input objects
referenced by the task's two input URLs. -/
def deleteGenerationTask (env : CancelEnv) (tasks : List GenerationTask)
    (taskId : String) : TaskDeleteOutcome :=
  let taskToDelete := tasks.find? (fun t => t.id == taskId)
  let locals := tasks.filter (fun t => !(t.id == taskId))
  let cancelCalls : List String :=
    match taskToDelete with
    | some t =>
      match t.runway_task_id with
      | some rid =>
        if t.status = "PENDING" ∨ t.status = "RUNNING" then [rid] else []
      | none => []
    | none => []
  let warned : Bool :=
    match cancelCalls with
    | [rid] =>
      match env.cancelResult rid with
      | .ok code => !respOk code && !(code == 404)
      | .error _ => false
    | _ => false
  let urls : List String :=
    (match taskToDelete with
     | some t => [t.input_character_url, t.input_reference_video_url]
     | none => [none, none]).filterMap id
  let paths := (urls.filter (fun u => u ≠ "")).map urlStorageKey
  { tasks := locals,
    cancelCalls := cancelCalls,
    warned := warned,
    reloaded := !env.dbDeleteOk,
    storageRemoveRequest := if paths.isEmpty then none else some paths }

/-- External collaborators of `saveGeneratedVideoToGallery`: the output
fetch, the dimension probe (the probe has no error handler in the source, so
a failing probe hangs and touches nothing — it is modelled as total), the
fresh uuid, the blob size, the object upload, `getPublicUrl`, the row
insert, and the environment of the inner `deleteGenerationTask` call. -/
structure PromoteEnv where
  fetchOk : Bool
  dimensions : Nat × Nat
  uuid : String
  videoSizeBytes : Nat
  uploadOk : Bool
  publicUrl : String → String
  insertOk : Bool
  cancelEnv : CancelEnv

/-- The observable effects of one `saveGeneratedVideoToGallery` call. -/
structure PromoteOutcome where
  tasks : List GenerationTask
  taskDeleteIssued : Bool
  uploadedPath : Option String
  insertedRow : Option NewAssetRow
  cancelCalls : List String
  storageRemoveRequest : Option (List (Option String))
  reloaded : Bool

/-- `saveGeneratedVideoToGallery` from `src/App.tsx`: guard on a logged-in
user and a present output URL; fetch the output (abort on failure), probe
dimensions, upload under a fresh path (abort on failure), insert the new
asset row built from the task's `initial_metadata` plus the user-supplied
final actor and tags (abort on failure); only then delete the task through
`deleteGenerationTask` and reload.  Every abort is the catch branch, which
only logs. -/
def saveGeneratedVideoToGallery (env : PromoteEnv) (userId : Option String)
    (tasks : List GenerationTask) (task : GenerationTask)
    (finalActor : String) (finalTags : List String) : PromoteOutcome :=
  let noop : PromoteOutcome := ⟨tasks, false, none, none, [], none, false⟩
  match userId, task.output_video_url with
  | some uid, some _ =>
    if env.fetchOk then
      let filename := task.initial_metadata.performance_actor ++ "_"
        ++ task.initial_metadata.movement_type ++ "_" ++ finalActor ++ ".mp4"
      let filePath := uid ++ "/" ++ env.uuid ++ "-" ++ filename
      if env.uploadOk then
        let row : NewAssetRow :=
          { file_path := filePath, actor_name := finalActor,
            movement_type := task.initial_metadata.movement_type,
            performance_actor := task.initial_metadata.performance_actor,
            take_number := task.initial_metadata.take_number,
            tags := finalTags, resolution := env.dimensions,
            file_size_bytes := env.videoSizeBytes, is_favorite := false,
            video_url := env.publicUrl filePath }
        if env.insertOk then
          let d := deleteGenerationTask env.cancelEnv tasks task.id
          ⟨d.tasks, true, some filePath, some row, d.cancelCalls,
            d.storageRemoveRequest, true⟩
        else ⟨tasks, false, some filePath, none, [], none, false⟩
      else noop
    else noop
  | _, _ => noop

/-- C7: deleting a generation task that is still `PENDING`/`RUNNING` with a
non-null `runway_task_id` issues exactly one external cancel call for that
id, treats a 404 cancel response as already settled rather than an error,
removes the task from the local collection whatever the cancel outcome, and
removes the two temporary input objects referenced by the task; for a task
in any other status, or with a null `runway_task_id`, no cancel call is
made. -/
theorem delete_task_cancel_policy (env : CancelEnv)
    (tasks : List GenerationTask) (taskId : String) (task : GenerationTask)
    (hfind : tasks.find? (fun t => t.id == taskId) = some task) :
    ((task.status = "PENDING" ∨ task.status = "RUNNING") →
        ∀ rid, task.runway_task_id = some rid →
        (deleteGenerationTask env tasks taskId).cancelCalls = [rid]
          ∧ (env.cancelResult rid = .ok 404 →
              (deleteGenerationTask env tasks taskId).warned = false)
          ∧ (deleteGenerationTask env tasks taskId).tasks
              = tasks.filter (fun t => !(t.id == taskId))
          ∧ (∀ cu ru, task.input_character_url = some cu →
              task.input_reference_video_url = some ru → cu ≠ "" → ru ≠ "" →
              (deleteGenerationTask env tasks taskId).storageRemoveRequest
                = some [urlStorageKey cu, urlStorageKey ru]))
      ∧ ((¬(task.status = "PENDING" ∨ task.status = "RUNNING")
            ∨ task.runway_task_id = none) →
          (deleteGenerationTask env tasks taskId).cancelCalls = []) := by
  constructor
  · intro hpr rid hrid
    refine ⟨?_, ?_, ?_, ?_⟩
    · simp [deleteGenerationTask, hfind, hrid, hpr]
    · intro hcr
      simp [deleteGenerationTask, hfind, hrid, hpr, hcr, respOk]
    · simp [deleteGenerationTask]
    · intro cu ru hcu hru hcune hrune
      simp [deleteGenerationTask, hfind, hrid, hpr, hcu, hru, hcune, hrune]
  · intro hneg
    rcases hneg with hst | hnone
    · cases hr2 : task.runway_task_id with
      | none => simp [deleteGenerationTask, hfind, hr2]
      | some rid => simp [deleteGenerationTask, hfind, hr2, hst]
    · simp [deleteGenerationTask, hfind, hnone]

def cancelEnvEx : CancelEnv := ⟨fun _ => .ok 404, true⟩

theorem delete_task_cancel_policy_witness :
    (deleteGenerationTask cancelEnvEx [taskRunEx] "t2").cancelCalls = ["job-2"]
      ∧ (deleteGenerationTask cancelEnvEx [taskRunEx] "t2").warned = false
      ∧ (deleteGenerationTask cancelEnvEx [taskRunEx] "t2").tasks = []
      ∧ (deleteGenerationTask cancelEnvEx [taskRunEx] "t2").storageRemoveRequest
          = some [urlStorageKey
              "https://h/storage/v1/object/public/videos/user1/char.mp4",
            urlStorageKey
              "https://h/storage/v1/object/public/videos/user1/ref.mp4"] := by
  have h := delete_task_cancel_policy cancelEnvEx [taskRunEx] "t2" taskRunEx
    (by decide)
  have h1 := h.1 (Or.inr rfl) "job-2" rfl
  refine ⟨h1.1, h1.2.1 rfl, ?_, h1.2.2.2 _ _ rfl rfl (by decide) (by decide)⟩
  rw [h1.2.2.1]
  decide

/-- C6: promotion is atomic with respect to the task record before the asset
insert: if the output fetch, the object upload or the asset insert fails,
the task collection is untouched and no task delete is issued, so the user
can retry; the task record is deleted only after the asset insert
succeeds. -/
theorem promotion_atomic_before_insert (env : PromoteEnv) (uid : String)
    (tasks : List GenerationTask) (task : GenerationTask)
    (fa : String) (ft : List String) (outUrl : String)
    (_hstat : task.status = "SUCCEEDED")
    (hout : task.output_video_url = some outUrl) :
    (¬(env.fetchOk = true ∧ env.uploadOk = true ∧ env.insertOk = true) →
        (saveGeneratedVideoToGallery env (some uid) tasks task fa ft).tasks
            = tasks
          ∧ (saveGeneratedVideoToGallery env (some uid) tasks task
              fa ft).taskDeleteIssued = false)
      ∧ (env.fetchOk = true → env.uploadOk = true → env.insertOk = true →
          (saveGeneratedVideoToGallery env (some uid) tasks task
              fa ft).taskDeleteIssued = true
            ∧ (saveGeneratedVideoToGallery env (some uid) tasks task fa ft).tasks
                = tasks.filter (fun t => !(t.id == task.id))) := by
  constructor
  · intro hfail
    cases hf : env.fetchOk with
    | false => simp [saveGeneratedVideoToGallery, hout, hf]
    | true =>
      cases hu : env.uploadOk with
      | false => simp [saveGeneratedVideoToGallery, hout, hf, hu]
      | true =>
        cases hi : env.insertOk with
        | false => simp [saveGeneratedVideoToGallery, hout, hf, hu, hi]
        | true => exact absurd ⟨hf, hu, hi⟩ hfail
  · intro hf hu hi
    constructor
    · simp [saveGeneratedVideoToGallery, hout, hf, hu, hi]
    · simp [saveGeneratedVideoToGallery, hout, hf, hu, hi,
        deleteGenerationTask]

def taskSavedEx : GenerationTask :=
  { mkTaskEx "t9" (some "job-9") "SUCCEEDED" with
    output_video_url := some "https://r/out.mp4" }

def promoteEnvEx : PromoteEnv :=
  ⟨true, (720, 1280), "u", 0, true, fun p => "https://pub/" ++ p, true,
    cancelEnvEx⟩

theorem promotion_atomic_before_insert_witness :
    (saveGeneratedVideoToGallery { promoteEnvEx with insertOk := false }
        (some "user1") [taskSavedEx] taskSavedEx "Nova" ["a"]).tasks
      = [taskSavedEx]
    ∧ (saveGeneratedVideoToGallery { promoteEnvEx with insertOk := false }
        (some "user1") [taskSavedEx] taskSavedEx "Nova" ["a"]).taskDeleteIssued
      = false
    ∧ (saveGeneratedVideoToGallery promoteEnvEx
        (some "user1") [taskSavedEx] taskSavedEx "Nova" ["a"]).taskDeleteIssued
      = true
    ∧ (saveGeneratedVideoToGallery promoteEnvEx
        (some "user1") [taskSavedEx] taskSavedEx "Nova" ["a"]).tasks = [] := by
  have hfailed := promotion_atomic_before_insert
    { promoteEnvEx with insertOk := false } "user1" [taskSavedEx] taskSavedEx
    "Nova" ["a"] "https://r/out.mp4" rfl rfl
  have hok := promotion_atomic_before_insert promoteEnvEx "user1" [taskSavedEx]
    taskSavedEx "Nova" ["a"] "https://r/out.mp4" rfl rfl
  have h1 := hfailed.1 (by intro h; exact absurd h.2.2 (by decide))
  have h2 := hok.2 rfl rfl rfl
  refine ⟨h1.1, h1.2, h2.1, ?_⟩
  rw [h2.2]
  decide

/-! Single-asset mutations (`deleteAsset` and `toggleFavorite` in
`src/App.tsx`). -/

/-- A stored video asset (`src/types.ts`). -/
structure VideoAsset where
  id : String
  file_path : String
  actor_name : String
  movement_type : String
  performance_actor : String
  take_number : Nat
  video_url : String
  thumbnail_url : Option String
  tags : List String
  created_at : String
  resolution : Nat × Nat
  file_size : String
  is_favorite : Bool
deriving DecidableEq, Repr

/-- External collaborators of `deleteAsset`: whether the row delete and the
backing-object removal succeed. -/
structure DeleteEnv where
  rowDeleteOk : Bool
  storageRemoveOk : Bool
deriving DecidableEq, Repr

/-- The observable effects of one `deleteAsset` call.
`storageRemoveFailed` records that the storage removal was called and
returned an error (which the source only logs). -/
structure DeleteAssetOutcome where
  assets : List VideoAsset
  storageRemoveRequest : Option (List String)
  storageRemoveFailed : Bool
  reloaded : Bool
deriving DecidableEq, Repr

/-- `deleteAsset` from `src/App.tsx`: optimistically remove the asset
locally; delete its row — a row-delete error throws into the catch branch,
which reloads everything; on row-delete success, remove the backing object
when the asset has a file path — a storage error there is only logged and
never reaches the catch branch. -/
def deleteAsset (env : DeleteEnv) (assets : List VideoAsset)
    (assetId : String) : DeleteAssetOutcome :=
  let assetToDelete := assets.find? (fun a => a.id == assetId)
  let locals := assets.filter (fun a => !(a.id == assetId))
  if env.rowDeleteOk = false then
    ⟨locals, none, false, true⟩
  else
    match assetToDelete with
    | some a =>
      if a.file_path ≠ "" then
        ⟨locals, some [a.file_path], !env.storageRemoveOk, false⟩
      else ⟨locals, none, false, false⟩
    | none => ⟨locals, none, false, false⟩

/-- The observable effects of one `toggleFavorite` call. -/
structure FavOutcome where
  assets : List VideoAsset
  updateIssued : Bool
  reloaded : Bool
deriving DecidableEq, Repr

/-- `toggleFavorite` from `src/App.tsx`: return early when the asset is
unknown; otherwise flip the flag locally, issue the remote update, and
reload on a remote error. -/
def toggleFavorite (updateOk : Bool) (assets : List VideoAsset)
    (assetId : String) : FavOutcome :=
  match assets.find? (fun a => a.id == assetId) with
  | none => ⟨assets, false, false⟩
  | some _ =>
    ⟨assets.map (fun a =>
        if a.id == assetId then { a with is_favorite := !a.is_favorite } else a),
      true, !updateOk⟩

def assetEx : VideoAsset :=
  ⟨"a1", "user1/f.mp4", "Nova", "Walk", "Alex", 1,
    "https://pub/user1/f.mp4", none, ["a"], "2024-01-01", (720, 1280),
    "1.00 MB", false⟩

/-- C9 counterexample: deleting one asset when the row delete succeeds but
the backing-object removal fails issues the storage call, observes its
failure, and performs NO reload — refuting the claim that an object-store
error during a single-entity mutation triggers the full reload. -/
theorem delete_asset_storage_error_no_reload :
    (deleteAsset ⟨true, false⟩ [assetEx] "a1").storageRemoveFailed = true
      ∧ (deleteAsset ⟨true, false⟩ [assetEx] "a1").storageRemoveRequest
          = some ["user1/f.mp4"]
      ∧ (deleteAsset ⟨true, false⟩ [assetEx] "a1").reloaded = false := by
  decide

/-- C9 amended: a remote-store (row) error during a single-entity mutation
triggers the full reload — `deleteAsset` reloads exactly when the row delete
fails and `toggleFavorite` reloads exactly when its update fails — but an
object-store failure while removing the backing object in `deleteAsset` is
only logged and never triggers a reload. -/
theorem reload_on_remote_store_error_only (env : DeleteEnv)
    (assets : List VideoAsset) (aid : String) :
    ((deleteAsset env assets aid).reloaded = true ↔ env.rowDeleteOk = false)
      ∧ (∀ updOk a, assets.find? (fun x => x.id == aid) = some a →
          ((toggleFavorite updOk assets aid).reloaded = true
            ↔ updOk = false)) := by
  constructor
  · cases hr : env.rowDeleteOk with
    | false => simp [deleteAsset, hr]
    | true =>
      cases hf : assets.find? (fun a => a.id == aid) with
      | none => simp [deleteAsset, hr, hf]
      | some a =>
        by_cases hp : a.file_path ≠ ""
        · simp [deleteAsset, hr, hf, hp]
        · simp [deleteAsset, hr, hf, hp]
  · intro updOk a hfind
    simp [toggleFavorite, hfind]

theorem reload_on_remote_store_error_only_witness :
    ((deleteAsset ⟨false, true⟩ [assetEx] "a1").reloaded = true
        ↔ (⟨false, true⟩ : DeleteEnv).rowDeleteOk = false)
      ∧ ((toggleFavorite false [assetEx] "a1").reloaded = true
        ↔ (false : Bool) = false) := by
  have h := reload_on_remote_store_error_only ⟨false, true⟩ [assetEx] "a1"
  exact ⟨h.1, h.2 false assetEx (by decide)⟩

end BOT
